import Mathlib

/-!
Verification of the GitAnalyzer Pro analysis-orchestrator design.

The frontend (TypeScript, under `frontend/src`) is embedded directly from
source.  The backend orchestrator core (job registry, task scheduler,
retry/backoff handler, progress tracker, result aggregator) is present in the
repository only through its API documentation and callers, so those components
are modelled from the specification text, as marked on each definition.
-/

namespace GitAnalyzer

/-- `AnalysisStatus` from `frontend/src/types/index.ts`:
`PENDING | PROCESSING | COMPLETED | FAILED`. -/
inductive AnalysisStatus where
  | pending
  | processing
  | completed
  | failed
deriving DecidableEq, Repr, BEq

/-- `AnalyzerType` from `frontend/src/types/index.ts`. -/
inductive AnalyzerType where
  | scope
  | uml
  | bpmn
  | flow
  | business
  | requirements
  | architecture
  | reports
deriving DecidableEq, Repr

/-- The `availableAnalyzers` list of `AnalysisForm.tsx` (the value column),
which coincides with the full `AnalyzerType` enumeration: the set of all
known analyzers. -/
def availableAnalyzers : List AnalyzerType :=
  [.scope, .uml, .bpmn, .flow, .business, .requirements, .architecture, .reports]

/-! ## Frontend store (`store/index.ts`, Zustand) -/

/-- The `AppState` interface of the Zustand store, parametric in the three
payload types (`AnalysisResponse`, `AnalysisStatusResponse`,
`AnalysisResults`), which the store never inspects. -/
structure AppState (A S R : Type) where
  currentAnalysis : Option A
  analysisStatus : Option S
  analysisResults : Option R
  isSubmitting : Bool
  isLoadingStatus : Bool
  isLoadingResults : Bool
  error : Option String
deriving DecidableEq, Repr

/-- The creation-time initial state of the store. -/
def initialAppState (A S R : Type) : AppState A S R :=
  { currentAnalysis := none
    analysisStatus := none
    analysisResults := none
    isSubmitting := false
    isLoadingStatus := false
    isLoadingResults := false
    error := none }

/-- `setCurrentAnalysis` action: `set({ currentAnalysis: analysis })`. -/
def setCurrentAnalysis {A S R : Type} (a : Option A) (s : AppState A S R) :
    AppState A S R :=
  { s with currentAnalysis := a }

/-- `setAnalysisStatus` action. -/
def setAnalysisStatus {A S R : Type} (st : Option S) (s : AppState A S R) :
    AppState A S R :=
  { s with analysisStatus := st }

/-- `setAnalysisResults` action. -/
def setAnalysisResults {A S R : Type} (r : Option R) (s : AppState A S R) :
    AppState A S R :=
  { s with analysisResults := r }

/-- `setError` action. -/
def setError {A S R : Type} (e : Option String) (s : AppState A S R) :
    AppState A S R :=
  { s with error := e }

/-- `resetState` action: a `set` of every field of the store back to its
initial value. -/
def resetState {A S R : Type} (s : AppState A S R) : AppState A S R :=
  { s with
    currentAnalysis := none
    analysisStatus := none
    analysisResults := none
    isSubmitting := false
    isLoadingStatus := false
    isLoadingResults := false
    error := none }

/-! ## Status poller (`components/AnalysisProgress.tsx`, in `main.tsx`) -/

/-- The rescheduling condition of `pollStatus`:
`status.status === AnalysisStatus.PROCESSING || status.status === AnalysisStatus.PENDING`. -/
def continuePolling (st : AnalysisStatus) : Bool :=
  st == AnalysisStatus.processing || st == AnalysisStatus.pending

/-- The sequence of statuses observed by successive `pollStatus` calls:
`statuses n` is the status returned by the n-th request.  After each request
the handler reschedules itself (via `setTimeout`) exactly when
`continuePolling` holds for the returned status; `fuel` bounds the number of
requests the environment allows (e.g. the page's lifetime). -/
def pollTrace (statuses : Nat → AnalysisStatus) : Nat → Nat → List AnalysisStatus
  | 0, _ => []
  | fuel + 1, n =>
    let st := statuses n
    if continuePolling st then st :: pollTrace statuses fuel (n + 1) else [st]

/-! ## Analysis form (`components/AnalysisForm.tsx`) -/

/-- The `analyzers` field sent by `handleSubmit`:
`selectedAnalyzers.length > 0 ? selectedAnalyzers : undefined`. -/
def clientAnalyzersField (selectedAnalyzers : List AnalyzerType) :
    Option (List AnalyzerType) :=
  if selectedAnalyzers.length > 0 then some selectedAnalyzers else none

/-- Modelled from the spec: the backend request handler is not under `src/`;
per §3, `requestedAnalyzers` "defaults to all known analyzers if
unspecified". -/
def requestedAnalyzersOf (field : Option (List AnalyzerType)) :
    List AnalyzerType :=
  field.getD availableAnalyzers

/-! ## Orchestrator core

Modelled from the spec: the backend orchestrator (`backend/services/orchestrator.py`
and friends, per `PROJECT_SUMMARY.md`) is not under `src/`; the job lifecycle
state machine, progress tracker and result aggregator below follow §3–§5 of
the specification. -/

/-- Modelled from the spec: `TaskRecord.state`
∈ {Queued, Running, Retrying, Succeeded, Failed, Cancelled} (§3). -/
inductive TaskState where
  | queued
  | running
  | retrying
  | succeeded
  | failed
  | cancelled
deriving DecidableEq, Repr

/-- A task has settled when it is Succeeded, Failed or Cancelled (§4.2). -/
def TaskState.settled : TaskState → Bool
  | .succeeded => true
  | .failed => true
  | .cancelled => true
  | _ => false

/-- Modelled from the spec: a TaskRecord (§3). -/
structure TaskRecord where
  analyzerId : String
  state : TaskState
  attempt : Nat
deriving DecidableEq, Repr

/-- Modelled from the spec: the AnalysisJob record owned by the Job Registry
(§3).  `resultFragments` maps succeeded analyzer ids to payloads;
`failures` is the failure list `{analyzerId, message}` built for Failed
tasks (§4.5); `completedAtSet` records whether `completedAt` has been
written. -/
structure AnalysisJob where
  id : String
  requestedAnalyzers : List String
  status : AnalysisStatus
  progressPercent : Nat
  currentStep : Option String
  tasks : List TaskRecord
  resultFragments : List (String × String)
  failures : List (String × String)
  errorMessage : Option String
  completedAtSet : Bool
deriving DecidableEq, Repr

/-- Number of settled tasks of a job. -/
def settledCount (j : AnalysisJob) : Nat :=
  (j.tasks.filter (fun t => t.state.settled)).length

/-- Total number of tasks of a job. -/
def totalTasks (j : AnalysisJob) : Nat :=
  j.tasks.length

/-- Modelled from the spec: `create(repositoryRef, requestedAnalyzers)` of the
Job Registry (§4.1) — a fresh job is Pending with one Queued TaskRecord per
requested analyzer (attempt counters start at 1) and 0% progress. -/
def createJob (id : String) (analyzers : List String) : AnalysisJob :=
  { id := id
    requestedAnalyzers := analyzers
    status := .pending
    progressPercent := 0
    currentStep := none
    tasks := analyzers.map (fun a => ⟨a, .queued, 1⟩)
    resultFragments := []
    failures := []
    errorMessage := none
    completedAtSet := false }

/-- Modelled from the spec: how a task settles — Succeeded with a result
fragment, Failed with an error message, or Cancelled (§4.2, §5). -/
inductive Settlement where
  | success (payload : String)
  | failure (msg : String)
  | cancelled
deriving DecidableEq, Repr

/-- The task state a settlement leaves behind. -/
def Settlement.finalState : Settlement → TaskState
  | .success _ => .succeeded
  | .failure _ => .failed
  | .cancelled => .cancelled

/-- Modelled from the spec: the atomic mutations funneled through the Job
Registry's `mutate` (§4.1, §5): the Pending → Processing transition on first
task launch, the settlement of one task together with the progress
recomputation (§4.4), the result aggregator's finalization (§4.5), and a
job-fatal failure (§4.2). -/
inductive JobOp where
  | start
  | settle (i : Nat) (o : Settlement)
  | finalize
  | fatal (msg : String)
deriving DecidableEq, Repr

/-- Modelled from the spec: `Pending --(first task launch)--> Processing`
(§4.5 state machine); a no-op from any other status. -/
def startProcessing (j : AnalysisJob) : AnalysisJob :=
  if j.status = .pending then { j with status := .processing } else j

/-- Modelled from the spec: settlement of task `i`, applied only while the
job is Processing and the task has not already settled.  The task's state,
the fragment/failure lists and `progressPercent = floor(settled/total*100)`
are all written in the same atomic mutation (§4.4). -/
def settleTask (i : Nat) (o : Settlement) (j : AnalysisJob) : AnalysisJob :=
  match j.status, j.tasks[i]? with
  | .processing, some t =>
    if t.state.settled then j
    else
      let tasks' := j.tasks.set i { t with state := o.finalState }
      { j with
        tasks := tasks'
        resultFragments :=
          match o with
          | .success p => j.resultFragments ++ [(t.analyzerId, p)]
          | _ => j.resultFragments
        failures :=
          match o with
          | .failure m => j.failures ++ [(t.analyzerId, m)]
          | _ => j.failures
        progressPercent :=
          (tasks'.filter (fun t => t.state.settled)).length * 100 / tasks'.length }
  | _, _ => j

/-- Modelled from the spec: the Result Aggregator (§4.5) — once the job is
Processing and every task has settled, set `completedAt` and perform the
single forward transition to Completed (at least one task Succeeded) or
Failed (none did). -/
def finalizeJob (j : AnalysisJob) : AnalysisJob :=
  if j.status = .processing ∧ j.tasks.all (fun t => t.state.settled) then
    { j with
      status :=
        if j.tasks.any (fun t => t.state = .succeeded) then .completed
        else .failed
      currentStep := some "Aggregating results"
      completedAtSet := true }
  else j

/-- Modelled from the spec: a job-fatal failure (§4.2) — from a live status
it sets status = Failed with `errorMessage`; Completed and Failed are
terminal, so it is a no-op there. -/
def fatalFailure (msg : String) (j : AnalysisJob) : AnalysisJob :=
  if j.status = .pending ∨ j.status = .processing then
    { j with status := .failed, errorMessage := some msg, completedAtSet := true }
  else j

/-- Apply one registry mutation. -/
def applyOp : JobOp → AnalysisJob → AnalysisJob
  | .start, j => startProcessing j
  | .settle i o, j => settleTask i o j
  | .finalize, j => finalizeJob j
  | .fatal m, j => fatalFailure m j

/-- Run a sequence of registry mutations.  Because every mutation is atomic
(§5), an arbitrary interleaving of concurrent actors is exactly an arbitrary
such sequence. -/
def run (ops : List JobOp) (j : AnalysisJob) : AnalysisJob :=
  ops.foldl (fun j op => applyOp op j) j

/-! ## Retry/Failure handler (§4.3) -/

/-- Modelled from the spec: the retry-eligibility classification (§4.3). -/
inductive ErrorClass where
  | transient
  | permanent
deriving DecidableEq, Repr

/-- The outcome of one analyzer-adapter invocation. -/
inductive AttemptOutcome where
  | ok (payload : String)
  | err (cls : ErrorClass) (msg : String)
deriving DecidableEq, Repr

/-- The terminal outcome of a task after the retry handler is done. -/
inductive TaskOutcome where
  | succeeded (payload : String)
  | failedTerminal (msg : String)
deriving DecidableEq, Repr

/-- Modelled from the spec: retry configuration — backoff base, multiplier,
jitter drawn per attempt, maximum attempt count (§4.3). -/
structure RetryConfig where
  base : Nat
  multiplier : Nat
  jitter : Nat → Nat
  maxAttempts : Nat

/-- Modelled from the spec: the default maximum attempt count is 3 (§4.3). -/
def defaultMaxAttempts : Nat := 3

/-- Modelled from the spec: the backoff delay before re-invoking the adapter
after a transient failure of attempt `a`:
`base * multiplier^(attempt-1)` plus random jitter (§4.3). -/
def backoffDelay (cfg : RetryConfig) (attempt : Nat) : Nat :=
  cfg.base * cfg.multiplier ^ (attempt - 1) + cfg.jitter attempt

/-- Modelled from the spec: the retry loop (§4.3), starting at attempt
`attempt` with `remaining` retries left.  `outcomes a` is what the adapter
returns on attempt `a`.  Returns the terminal outcome, the number of the
attempt it was reached on, and the list of backoff delays that were slept. -/
def runWithRetry (cfg : RetryConfig) (outcomes : Nat → AttemptOutcome) :
    Nat → Nat → TaskOutcome × Nat × List Nat
  | attempt, remaining =>
    match outcomes attempt with
    | .ok p => (.succeeded p, attempt, [])
    | .err .permanent m => (.failedTerminal m, attempt, [])
    | .err .transient m =>
      match remaining with
      | 0 => (.failedTerminal m, attempt, [])
      | r + 1 =>
        let rest := runWithRetry cfg outcomes (attempt + 1) r
        (rest.1, rest.2.1, backoffDelay cfg attempt :: rest.2.2)

/-- Modelled from the spec: run one task through the Retry/Failure Handler —
attempts start at 1 and at most `cfg.maxAttempts` are made (§4.3). -/
def runTask (cfg : RetryConfig) (outcomes : Nat → AttemptOutcome) :
    TaskOutcome × Nat × List Nat :=
  runWithRetry cfg outcomes 1 (cfg.maxAttempts - 1)

/-! ## Results query (§6) -/

/-- Modelled from the spec: the results query's failure modes (§6). -/
inductive ResultsError where
  | notFound
  | notReady
deriving DecidableEq, Repr

/-- The merged result document: succeeded fragments plus the failure list. -/
structure ResultDocument where
  fragments : List (String × String)
  failures : List (String × String)
deriving DecidableEq, Repr

/-- Modelled from the spec: the results query over the Job Registry (§6,
§4.1) — `NotFound` for an unknown job id, `NotReady` while status ≠
Completed, otherwise the merged result document. -/
def resultsQuery (registry : List AnalysisJob) (id : String) :
    Except ResultsError ResultDocument :=
  match registry.find? (fun j => j.id = id) with
  | none => .error .notFound
  | some j =>
    if j.status = .completed then .ok ⟨j.resultFragments, j.failures⟩
    else .error .notReady

/-! ## Counting helpers -/

theorem countP_set_of_getElem {α : Type} (p : α → Bool) :
    ∀ (l : List α) (i : Nat) (a t : α), l[i]? = some t →
      (l.set i a).countP p + (if p t then 1 else 0)
        = l.countP p + (if p a then 1 else 0) := by
  intro l
  induction l with
  | nil => intro i a t h; simp at h
  | cons x xs ih =>
    intro i a t h
    cases i with
    | zero =>
      simp only [List.getElem?_cons_zero, Option.some.injEq] at h
      subst h
      simp only [List.set_cons_zero, List.countP_cons]
      omega
    | succ n =>
      simp only [List.getElem?_cons_succ] at h
      have := ih n a t h
      simp only [List.set_cons_succ, List.countP_cons]
      omega

theorem length_filter_add_length_filter_not {α : Type} (p : α → Bool)
    (l : List α) :
    (l.filter p).length + (l.filter (fun a => !(p a))).length = l.length := by
  induction l with
  | nil => rfl
  | cons x xs ih => cases h : p x <;> simp [List.filter_cons, h] <;> omega

/-! ## Basic facts about the registry mutations -/

theorem settleTask_of_unsettled {j : AnalysisJob} {i : Nat} {t : TaskRecord}
    (o : Settlement) (hst : j.status = .processing)
    (ht : j.tasks[i]? = some t) (hs : t.state.settled = false) :
    settleTask i o j =
      { j with
        tasks := j.tasks.set i { t with state := o.finalState }
        resultFragments :=
          match o with
          | .success p => j.resultFragments ++ [(t.analyzerId, p)]
          | _ => j.resultFragments
        failures :=
          match o with
          | .failure m => j.failures ++ [(t.analyzerId, m)]
          | _ => j.failures
        progressPercent :=
          ((j.tasks.set i { t with state := o.finalState }).filter
              (fun t => t.state.settled)).length * 100
            / (j.tasks.set i { t with state := o.finalState }).length } := by
  unfold settleTask
  rw [hst, ht]
  simp [hs]

theorem settleTask_status (i : Nat) (o : Settlement) (j : AnalysisJob) :
    (settleTask i o j).status = j.status := by
  unfold settleTask
  split
  · split <;> rfl
  · rfl

theorem settleTask_tasks_length (i : Nat) (o : Settlement) (j : AnalysisJob) :
    (settleTask i o j).tasks.length = j.tasks.length := by
  unfold settleTask
  split
  · split
    · rfl
    · simp
  · rfl

theorem settleTask_not_processing {j : AnalysisJob}
    (h : j.status ≠ .processing) (i : Nat) (o : Settlement) :
    settleTask i o j = j := by
  unfold settleTask
  split
  · simp_all
  · rfl

theorem applyOp_tasks_length (op : JobOp) (j : AnalysisJob) :
    (applyOp op j).tasks.length = j.tasks.length := by
  cases op with
  | start =>
    simp only [applyOp]
    unfold startProcessing
    split <;> rfl
  | settle i o => exact settleTask_tasks_length i o j
  | finalize =>
    simp only [applyOp]
    unfold finalizeJob
    split <;> rfl
  | fatal m =>
    simp only [applyOp]
    unfold fatalFailure
    split <;> rfl

/-- From a terminal status every registry mutation is the identity: the
guards of all four operations require a live (Pending/Processing) job. -/
theorem applyOp_terminal (op : JobOp) (j : AnalysisJob)
    (h : j.status = .completed ∨ j.status = .failed) : applyOp op j = j := by
  have hp : j.status ≠ .pending := by rcases h with h | h <;> rw [h] <;> simp
  have hr : j.status ≠ .processing := by rcases h with h | h <;> rw [h] <;> simp
  cases op with
  | start =>
    simp only [applyOp]
    unfold startProcessing
    simp [hp]
  | settle i o => exact settleTask_not_processing hr i o
  | finalize =>
    simp only [applyOp]
    unfold finalizeJob
    simp [hr]
  | fatal m =>
    simp only [applyOp]
    unfold fatalFailure
    simp [hp, hr]

theorem run_terminal (ops : List JobOp) (j : AnalysisJob)
    (h : j.status = .completed ∨ j.status = .failed) : run ops j = j := by
  induction ops with
  | nil => rfl
  | cons op ops ih =>
    show run ops (applyOp op j) = j
    rw [applyOp_terminal op j h]
    exact ih

theorem run_append (ops₁ ops₂ : List JobOp) (j : AnalysisJob) :
    run (ops₁ ++ ops₂) j = run ops₂ (run ops₁ j) :=
  List.foldl_append _ _ _ _

theorem finalState_settled (o : Settlement) : o.finalState.settled = true := by
  cases o <;> rfl

theorem not_succeeded_of_not_settled {s : TaskState}
    (h : s.settled = false) : s ≠ .succeeded := by
  cases s <;> simp_all [TaskState.settled]

theorem not_failed_of_not_settled {s : TaskState}
    (h : s.settled = false) : s ≠ .failed := by
  cases s <;> simp_all [TaskState.settled]

/-! ## The job invariant

`progressPercent` always equals `floor(settledTasks / totalTasks * 100)`, a
Completed job has all tasks settled with at least one Succeeded, and the
fragment/failure lists are in bijection with the Succeeded/Failed tasks. -/

def JobInv (j : AnalysisJob) : Prop :=
  j.progressPercent = settledCount j * 100 / totalTasks j ∧
  (j.status = .completed →
    (∀ t ∈ j.tasks, t.state.settled = true) ∧ ∃ t ∈ j.tasks, t.state = .succeeded) ∧
  j.resultFragments.length
    = (j.tasks.filter (fun t => t.state = TaskState.succeeded)).length ∧
  j.failures.length
    = (j.tasks.filter (fun t => t.state = TaskState.failed)).length

theorem length_filter_set (p : TaskRecord → Bool) (tasks : List TaskRecord)
    (i : Nat) (t a : TaskRecord) (ht : tasks[i]? = some t)
    (hpt : p t = false) :
    ((tasks.set i a).filter p).length
      = (tasks.filter p).length + (if p a then 1 else 0) := by
  have h := countP_set_of_getElem p tasks i a t ht
  rw [hpt] at h
  simp only [Bool.false_eq_true, if_false, Nat.add_zero] at h
  rw [← List.countP_eq_length_filter, ← List.countP_eq_length_filter]
  omega

theorem settledCount_settleTask {j : AnalysisJob} {i : Nat} {t : TaskRecord}
    (o : Settlement) (hst : j.status = .processing)
    (ht : j.tasks[i]? = some t) (hs : t.state.settled = false) :
    settledCount (settleTask i o j) = settledCount j + 1 := by
  rw [settleTask_of_unsettled o hst ht hs]
  show ((j.tasks.set i { t with state := o.finalState }).filter
      (fun t => t.state.settled)).length = _
  rw [length_filter_set (fun tr => tr.state.settled) j.tasks i t _ ht hs]
  simp [finalState_settled, settledCount]

theorem jobInv_create (id : String) (analyzers : List String) :
    JobInv (createJob id analyzers) := by
  have h1 : ∀ (p : TaskRecord → Bool),
      (∀ a : String, p ⟨a, .queued, 1⟩ = false) →
      (createJob id analyzers).tasks.filter p = [] := by
    intro p hp
    apply List.filter_eq_nil_iff.mpr
    intro t htm
    simp only [createJob, List.mem_map] at htm
    obtain ⟨a, _, rfl⟩ := htm
    simp [hp]
  refine ⟨?_, ?_, ?_, ?_⟩
  · show (0 : Nat) = settledCount _ * 100 / totalTasks _
    unfold settledCount
    rw [h1 _ (fun a => rfl)]
    simp
  · intro h; simp [createJob] at h
  · show (0 : Nat) = _
    rw [h1 _ (fun a => by simp)]
    rfl
  · show (0 : Nat) = _
    rw [h1 _ (fun a => by simp)]
    rfl

theorem jobInv_settle {j : AnalysisJob} (hinv : JobInv j)
    (i : Nat) (o : Settlement) : JobInv (settleTask i o j) := by
  obtain ⟨hprog, hcomp, hfrag, hfail⟩ := hinv
  by_cases hst : j.status = .processing
  · match ht : j.tasks[i]? with
    | none =>
      unfold settleTask
      rw [hst, ht]
      exact ⟨hprog, hcomp, hfrag, hfail⟩
    | some t =>
      by_cases hs : t.state.settled
      · unfold settleTask
        rw [hst, ht]
        simp only [hs, if_true]
        exact ⟨hprog, hcomp, hfrag, hfail⟩
      · have hs' : t.state.settled = false := Bool.eq_false_iff.mpr hs
        rw [settleTask_of_unsettled o hst ht hs']
        have hcs := length_filter_set
          (fun tr => decide (tr.state = TaskState.succeeded)) j.tasks i t
          { t with state := o.finalState } ht
          (by simp [not_succeeded_of_not_settled hs'])
        have hcf := length_filter_set
          (fun tr => decide (tr.state = TaskState.failed)) j.tasks i t
          { t with state := o.finalState } ht
          (by simp [not_failed_of_not_settled hs'])
        refine ⟨rfl, ?_, ?_, ?_⟩
        · intro h
          have h' : j.status = .completed := h
          rw [hst] at h'
          simp at h'
        · show (match o with
            | .success p => j.resultFragments ++ [(t.analyzerId, p)]
            | _ => j.resultFragments).length
            = ((j.tasks.set i { t with state := o.finalState }).filter
                (fun tr => decide (tr.state = TaskState.succeeded))).length
          cases o <;> simp_all [Settlement.finalState]
        · show (match o with
            | .failure m => j.failures ++ [(t.analyzerId, m)]
            | _ => j.failures).length
            = ((j.tasks.set i { t with state := o.finalState }).filter
                (fun tr => decide (tr.state = TaskState.failed))).length
          cases o <;> simp_all [Settlement.finalState]
  · rw [settleTask_not_processing hst i o]
    exact ⟨hprog, hcomp, hfrag, hfail⟩

theorem jobInv_applyOp {j : AnalysisJob} (hinv : JobInv j) (op : JobOp) :
    JobInv (applyOp op j) := by
  obtain ⟨hprog, hcomp, hfrag, hfail⟩ := hinv
  cases op with
  | start =>
    simp only [applyOp]
    unfold startProcessing
    split
    · exact ⟨hprog, by intro h; simp at h, hfrag, hfail⟩
    · exact ⟨hprog, hcomp, hfrag, hfail⟩
  | settle i o => exact jobInv_settle ⟨hprog, hcomp, hfrag, hfail⟩ i o
  | finalize =>
    simp only [applyOp]
    unfold finalizeJob
    split
    · next hguard =>
      obtain ⟨hps, hall⟩ := hguard
      refine ⟨hprog, ?_, hfrag, hfail⟩
      intro h
      simp only at h
      split at h
      · next hany =>
        refine ⟨fun t htm => ?_, ?_⟩
        · exact List.all_eq_true.mp hall t htm
        · obtain ⟨t, htm, hts⟩ := List.any_eq_true.mp hany
          exact ⟨t, htm, of_decide_eq_true hts⟩
      · simp at h
    · exact ⟨hprog, hcomp, hfrag, hfail⟩
  | fatal m =>
    simp only [applyOp]
    unfold fatalFailure
    split
    · exact ⟨hprog, by intro h; simp at h, hfrag, hfail⟩
    · exact ⟨hprog, hcomp, hfrag, hfail⟩

theorem jobInv_run {j : AnalysisJob} (hinv : JobInv j) (ops : List JobOp) :
    JobInv (run ops j) := by
  induction ops generalizing j with
  | nil => exact hinv
  | cons op ops ih => exact ih (jobInv_applyOp hinv op)

/-! ## Progress bounds and monotonicity -/

theorem settledCount_le_totalTasks (j : AnalysisJob) :
    settledCount j ≤ totalTasks j :=
  List.length_filter_le _ _

theorem progress_le_100 {j : AnalysisJob} (hinv : JobInv j) :
    j.progressPercent ≤ 100 := by
  rw [hinv.1]
  rcases Nat.eq_zero_or_pos (totalTasks j) with h0 | h0
  · simp [h0]
  · calc settledCount j * 100 / totalTasks j
        ≤ totalTasks j * 100 / totalTasks j :=
          Nat.div_le_div_right
            (Nat.mul_le_mul_right _ (settledCount_le_totalTasks j))
      _ = 100 := Nat.mul_div_cancel_left 100 h0

theorem settledCount_le_settleTask (i : Nat) (o : Settlement)
    (j : AnalysisJob) : settledCount j ≤ settledCount (settleTask i o j) := by
  by_cases hst : j.status = .processing
  · match ht : j.tasks[i]? with
    | none =>
      unfold settleTask
      rw [hst, ht]
    | some t =>
      by_cases hs : t.state.settled
      · unfold settleTask
        rw [hst, ht]
        simp only [hs, if_true]
        exact Nat.le_refl _
      · rw [settledCount_settleTask o hst ht (Bool.eq_false_iff.mpr hs)]
        exact Nat.le_succ _
  · rw [settleTask_not_processing hst i o]

theorem progress_mono_applyOp {j : AnalysisJob} (hinv : JobInv j)
    (op : JobOp) : j.progressPercent ≤ (applyOp op j).progressPercent := by
  cases op with
  | start =>
    simp only [applyOp]
    unfold startProcessing
    split <;> exact Nat.le_refl _
  | settle i o =>
    have h' := (jobInv_settle hinv i o).1
    have hlen : totalTasks (settleTask i o j) = totalTasks j :=
      settleTask_tasks_length i o j
    show j.progressPercent ≤ (settleTask i o j).progressPercent
    rw [hinv.1, h', hlen]
    exact Nat.div_le_div_right
      (Nat.mul_le_mul_right _ (settledCount_le_settleTask i o j))
  | finalize =>
    simp only [applyOp]
    unfold finalizeJob
    split <;> exact Nat.le_refl _
  | fatal m =>
    simp only [applyOp]
    unfold fatalFailure
    split <;> exact Nat.le_refl _

theorem progress_mono_run {j : AnalysisJob} (hinv : JobInv j)
    (ops : List JobOp) : j.progressPercent ≤ (run ops j).progressPercent := by
  induction ops generalizing j with
  | nil => exact Nat.le_refl _
  | cons op ops ih =>
    exact Nat.le_trans (progress_mono_applyOp hinv op)
      (ih (jobInv_applyOp hinv op))

theorem progress_eq_100_of_completed {j : AnalysisJob} (hinv : JobInv j)
    (h : j.status = .completed) : j.progressPercent = 100 := by
  obtain ⟨hprog, hcomp, -, -⟩ := hinv
  obtain ⟨hall, t, htm, -⟩ := hcomp h
  have hsc : settledCount j = totalTasks j := by
    unfold settledCount totalTasks
    rw [List.filter_eq_self.mpr hall]
  have hpos : 0 < totalTasks j :=
    List.length_pos.mpr (List.ne_nil_of_mem htm)
  rw [hprog, hsc, Nat.mul_div_cancel_left 100 hpos]

/-! ## The forward order on statuses -/

/-- The position of a status in the forward order
Pending, Processing, Completed, Failed of §3. -/
def statusRank : AnalysisStatus → Nat
  | .pending => 0
  | .processing => 1
  | .completed => 2
  | .failed => 3

theorem statusRank_injective (s₁ s₂ : AnalysisStatus)
    (h : statusRank s₁ = statusRank s₂) : s₁ = s₂ := by
  revert h
  cases s₁ <;> cases s₂ <;> decide

theorem applyOp_status_forward (op : JobOp) (j : AnalysisJob) :
    statusRank j.status ≤ statusRank (applyOp op j).status ∧
    ((applyOp op j).status ≠ j.status →
      statusRank j.status < statusRank (applyOp op j).status) := by
  cases op with
  | start =>
    simp only [applyOp]
    unfold startProcessing
    split
    · next h =>
      rw [h]
      exact ⟨by simp [statusRank], fun _ => by simp [statusRank]⟩
    · exact ⟨Nat.le_refl _, fun hne => absurd rfl hne⟩
  | settle i o =>
    simp only [applyOp]
    refine ⟨Nat.le_of_eq ?_, fun hne => absurd (settleTask_status i o j) hne⟩
    rw [settleTask_status]
  | finalize =>
    simp only [applyOp]
    unfold finalizeJob
    split
    · next h =>
      rw [h.1]
      split <;> exact ⟨by simp [statusRank], fun _ => by simp [statusRank]⟩
    · exact ⟨Nat.le_refl _, fun hne => absurd rfl hne⟩
  | fatal m =>
    simp only [applyOp]
    unfold fatalFailure
    split
    · next h =>
      rcases h with h | h <;> rw [h] <;>
        exact ⟨by simp [statusRank], fun _ => by simp [statusRank]⟩
    · exact ⟨Nat.le_refl _, fun hne => absurd rfl hne⟩

theorem statusRank_run_le (ops : List JobOp) (j : AnalysisJob) :
    statusRank j.status ≤ statusRank (run ops j).status := by
  induction ops generalizing j with
  | nil => exact Nat.le_refl _
  | cons op ops ih =>
    exact Nat.le_trans (applyOp_status_forward op j).1 (ih (applyOp op j))

theorem status_no_revisit (j : AnalysisJob) (ops₁ ops₂ : List JobOp)
    (h : (run (ops₁ ++ ops₂) j).status = j.status) :
    (run ops₁ j).status = j.status := by
  apply statusRank_injective
  have h1 := statusRank_run_le ops₁ j
  have h2 := statusRank_run_le ops₂ (run ops₁ j)
  rw [run_append] at h
  have h3 := congrArg statusRank h
  omega

/-! ## Behaviour of the retry loop -/

theorem runWithRetry_all_transient (cfg : RetryConfig)
    (outcomes : Nat → AttemptOutcome) (msgs : Nat → String)
    (h : ∀ a, outcomes a = .err .transient (msgs a)) :
    ∀ (r a : Nat), runWithRetry cfg outcomes a r
      = (.failedTerminal (msgs (a + r)), a + r,
         (List.range r).map (fun k => backoffDelay cfg (a + k))) := by
  intro r
  induction r with
  | zero =>
    intro a
    unfold runWithRetry
    rw [h a]
    simp
  | succ n ih =>
    intro a
    unfold runWithRetry
    rw [h a]
    simp only []
    rw [ih (a + 1)]
    have harith : a + 1 + n = a + (n + 1) := by omega
    have hmap : (List.range n).map (fun k => backoffDelay cfg (a + 1 + k))
        = (List.range n).map (fun k => backoffDelay cfg (a + (k + 1))) :=
      List.map_congr_left (fun k _ => by rw [show a + 1 + k = a + (k + 1) by omega])
    simp [harith, hmap, List.range_succ_eq_map, List.map_map, Function.comp,
      Nat.succ_eq_add_one, Nat.add_comm]
    intro k _
    rw [show k + (a + 1) = a + (k + 1) by omega]

theorem runTask_permanent (cfg : RetryConfig) (outcomes : Nat → AttemptOutcome)
    (m : String) (h : outcomes 1 = .err .permanent m) :
    runTask cfg outcomes = (.failedTerminal m, 1, []) := by
  unfold runTask runWithRetry
  rw [h]

theorem runTask_all_transient (cfg : RetryConfig)
    (outcomes : Nat → AttemptOutcome) (msgs : Nat → String)
    (hmax : 1 ≤ cfg.maxAttempts)
    (h : ∀ a, outcomes a = .err .transient (msgs a)) :
    runTask cfg outcomes
      = (.failedTerminal (msgs cfg.maxAttempts), cfg.maxAttempts,
         (List.range (cfg.maxAttempts - 1)).map
           (fun k => cfg.base * cfg.multiplier ^ k + cfg.jitter (k + 1))) := by
  unfold runTask
  rw [runWithRetry_all_transient cfg outcomes msgs h (cfg.maxAttempts - 1) 1]
  have h1 : 1 + (cfg.maxAttempts - 1) = cfg.maxAttempts := by omega
  rw [h1]
  have h2 : (List.range (cfg.maxAttempts - 1)).map
      (fun k => backoffDelay cfg (1 + k))
      = (List.range (cfg.maxAttempts - 1)).map
        (fun k => cfg.base * cfg.multiplier ^ k + cfg.jitter (k + 1)) := by
    apply List.map_congr_left
    intro k _
    unfold backoffDelay
    rw [show 1 + k - 1 = k by omega, show 1 + k = k + 1 by omega]
  rw [h2]

theorem settleTask_tasks_of_unsettled {j : AnalysisJob} {i : Nat}
    {t : TaskRecord} (o : Settlement) (hst : j.status = .processing)
    (ht : j.tasks[i]? = some t) (hs : t.state.settled = false) :
    (settleTask i o j).tasks = j.tasks.set i { t with state := o.finalState } := by
  rw [settleTask_of_unsettled o hst ht hs]

theorem settleTask_progress_of_unsettled {j : AnalysisJob} {i : Nat}
    {t : TaskRecord} (o : Settlement) (hst : j.status = .processing)
    (ht : j.tasks[i]? = some t) (hs : t.state.settled = false) :
    (settleTask i o j).progressPercent
      = ((j.tasks.set i { t with state := o.finalState }).filter
          (fun t => t.state.settled)).length * 100
        / (j.tasks.set i { t with state := o.finalState }).length := by
  rw [settleTask_of_unsettled o hst ht hs]

/-! ## The claims -/

/-- C1: for every job whose tasks have all settled, the finalized status is
Completed if at least one task Succeeded and Failed if zero tasks Succeeded;
when every task either succeeded or failed (k of N failed), the result
document carries exactly N−k fragments and k failure entries. -/
theorem claim_c1_finalization (id : String) (analyzers : List String)
    (ops : List JobOp) (j : AnalysisJob)
    (hj : j = run ops (createJob id analyzers))
    (hstat : j.status = .processing)
    (hsettled : ∀ t ∈ j.tasks, t.state.settled = true) :
    ((∃ t ∈ j.tasks, t.state = .succeeded) →
      (finalizeJob j).status = .completed) ∧
    ((∀ t ∈ j.tasks, t.state ≠ .succeeded) →
      (finalizeJob j).status = .failed) ∧
    ((∀ t ∈ j.tasks, t.state = .succeeded ∨ t.state = .failed) →
      (finalizeJob j).resultFragments.length
          = j.tasks.length
            - (j.tasks.filter (fun t => t.state = TaskState.failed)).length ∧
      (finalizeJob j).failures.length
          = (j.tasks.filter (fun t => t.state = TaskState.failed)).length) := by
  have hinv : JobInv j := hj ▸ jobInv_run (jobInv_create id analyzers) ops
  have hguard : j.status = .processing ∧
      (j.tasks.all (fun t => t.state.settled)) = true :=
    ⟨hstat, List.all_eq_true.mpr hsettled⟩
  refine ⟨?_, ?_, ?_⟩
  · rintro ⟨t, htm, hts⟩
    have hany : (j.tasks.any (fun t => decide (t.state = TaskState.succeeded)))
        = true := List.any_eq_true.mpr ⟨t, htm, by simp [hts]⟩
    unfold finalizeJob
    rw [if_pos hguard]
    simp [hany]
  · intro hnone
    have hany : (j.tasks.any (fun t => decide (t.state = TaskState.succeeded)))
        = false := by
      rw [List.any_eq_false]
      intro t htm
      simp [hnone t htm]
    unfold finalizeJob
    rw [if_pos hguard]
    simp [hany]
  · intro hsf
    have hfrag : (finalizeJob j).resultFragments = j.resultFragments := by
      unfold finalizeJob; split <;> rfl
    have hfail : (finalizeJob j).failures = j.failures := by
      unfold finalizeJob; split <;> rfl
    have hpart := length_filter_add_length_filter_not
      (fun t => decide (t.state = TaskState.succeeded)) j.tasks
    have hcong : j.tasks.filter
        (fun t => !(decide (t.state = TaskState.succeeded)))
        = j.tasks.filter (fun t => decide (t.state = TaskState.failed)) := by
      apply List.filter_congr
      intro t htm
      rcases hsf t htm with h | h <;> simp [h]
    rw [hcong] at hpart
    obtain ⟨-, -, hfl, hflf⟩ := hinv
    constructor
    · rw [hfrag, hfl]
      omega
    · rw [hfail, hflf]

/-- C1 witness: three tasks, two succeed and one fails — the finalized job is
Completed. -/
theorem claim_c1_witness :
    (finalizeJob (run
        [JobOp.start, JobOp.settle 0 (Settlement.success "s"),
         JobOp.settle 1 (Settlement.success "u"),
         JobOp.settle 2 (Settlement.failure "auth")]
        (createJob "job-1" ["scope", "uml", "reports"]))).status
      = AnalysisStatus.completed :=
  (claim_c1_finalization "job-1" ["scope", "uml", "reports"]
    [JobOp.start, JobOp.settle 0 (Settlement.success "s"),
     JobOp.settle 1 (Settlement.success "u"),
     JobOp.settle 2 (Settlement.failure "auth")]
    _ rfl (by decide) (by decide)).1 (by decide)

/-- C2: `progressPercent` is an integer in 0–100 (here a `Nat`, so the lower
bound is inherent), non-decreasing along every execution, and equal to
exactly 100 whenever status is Completed. -/
theorem claim_c2_progress (id : String) (analyzers : List String)
    (ops more : List JobOp) :
    (run ops (createJob id analyzers)).progressPercent ≤ 100 ∧
    (run ops (createJob id analyzers)).progressPercent
      ≤ (run (ops ++ more) (createJob id analyzers)).progressPercent ∧
    ((run (ops ++ more) (createJob id analyzers)).status = .completed →
      (run (ops ++ more) (createJob id analyzers)).progressPercent = 100) := by
  have hinv := jobInv_run (jobInv_create id analyzers) ops
  have hinv' := jobInv_run (jobInv_create id analyzers) (ops ++ more)
  refine ⟨progress_le_100 hinv, ?_, progress_eq_100_of_completed hinv'⟩
  rw [run_append]
  exact progress_mono_run hinv more

/-- C2 witness: a single-analyzer job that settles and finalizes reaches
exactly 100% at Completed. -/
theorem claim_c2_witness :
    (run ([JobOp.start] ++
        [JobOp.settle 0 (Settlement.success "frag"), JobOp.finalize])
      (createJob "job-2" ["scope"])).progressPercent = 100 :=
  (claim_c2_progress "job-2" ["scope"] [JobOp.start]
    [JobOp.settle 0 (Settlement.success "frag"), JobOp.finalize]).2.2 (by decide)

/-- C3: once a job is Completed or Failed, no subsequent registry mutation
changes any field of the record: a single step and any whole run from a
terminal state are the identity. -/
theorem claim_c3_terminal_immutable (j : AnalysisJob) (op : JobOp)
    (ops : List JobOp) (h : j.status = .completed ∨ j.status = .failed) :
    applyOp op j = j ∧ run ops j = j :=
  ⟨applyOp_terminal op j h, run_terminal ops j h⟩

/-- C3 witness: a job-fatal mutation applied to a Completed job changes
nothing. -/
theorem claim_c3_witness :
    applyOp (JobOp.fatal "late")
        { createJob "job-3" ["scope"] with status := AnalysisStatus.completed }
      = { createJob "job-3" ["scope"] with status := AnalysisStatus.completed } :=
  (claim_c3_terminal_immutable
    { createJob "job-3" ["scope"] with status := AnalysisStatus.completed }
    (JobOp.fatal "late") [] (Or.inl rfl)).1

/-- C5: a job's status is always one of Pending, Processing, Completed,
Failed; every mutation moves the status weakly forward in that order,
strictly when it changes it, and no run ever returns to a previously held
status. -/
theorem claim_c5_status_forward (j : AnalysisJob) (op : JobOp)
    (ops₁ ops₂ : List JobOp) :
    (j.status = .pending ∨ j.status = .processing ∨
      j.status = .completed ∨ j.status = .failed) ∧
    statusRank j.status ≤ statusRank (applyOp op j).status ∧
    ((applyOp op j).status ≠ j.status →
      statusRank j.status < statusRank (applyOp op j).status) ∧
    ((run (ops₁ ++ ops₂) j).status = j.status →
      (run ops₁ j).status = j.status) := by
  refine ⟨?_, (applyOp_status_forward op j).1, (applyOp_status_forward op j).2,
    status_no_revisit j ops₁ ops₂⟩
  cases j.status <;> simp

/-- C5 witness: launching the first task strictly advances a Pending job. -/
theorem claim_c5_witness :
    statusRank (createJob "job-5" ["scope"]).status
      < statusRank (applyOp JobOp.start (createJob "job-5" ["scope"])).status :=
  (claim_c5_status_forward (createJob "job-5" ["scope"]) JobOp.start
    [] []).2.2.1 (by decide)

/-- C6: the results query returns the merged result document exactly when the
job exists and its status is Completed; an unknown id fails with NotFound and
a non-Completed status fails with NotReady — a document is never returned
otherwise. -/
theorem claim_c6_results_query (registry : List AnalysisJob) (id : String) :
    (registry.find? (fun j => j.id = id) = none →
      resultsQuery registry id = .error .notFound) ∧
    (∀ j, registry.find? (fun j => j.id = id) = some j →
      j.status ≠ .completed →
      resultsQuery registry id = .error .notReady) ∧
    (∀ j, registry.find? (fun j => j.id = id) = some j →
      j.status = .completed →
      resultsQuery registry id = .ok ⟨j.resultFragments, j.failures⟩) ∧
    (∀ doc, resultsQuery registry id = .ok doc →
      ∃ j, registry.find? (fun j => j.id = id) = some j ∧
        j.status = .completed ∧ doc = ⟨j.resultFragments, j.failures⟩) := by
  refine ⟨?_, ?_, ?_, ?_⟩
  · intro h
    unfold resultsQuery
    rw [h]
  · intro j hj hne
    unfold resultsQuery
    rw [hj]
    simp [hne]
  · intro j hj hc
    unfold resultsQuery
    rw [hj]
    simp [hc]
  · intro doc h
    unfold resultsQuery at h
    split at h
    · simp at h
    · next j hf =>
      split at h
      · next hc =>
        injection h with h'
        exact ⟨j, hf, hc, h'.symm⟩
      · simp at h

/-- C6 witness: querying an id that is not in the registry fails with
NotFound. -/
theorem claim_c6_witness :
    resultsQuery [createJob "job-6" ["scope"]] "job-unknown"
      = Except.error ResultsError.notFound :=
  (claim_c6_results_query [createJob "job-6" ["scope"]] "job-unknown").1
    (by decide)

/-- C7: the client omits the `analyzers` field exactly when the user selected
none, and the resulting requested-analyzer set (defaulting to all known
analyzers when the field is absent) is never empty. -/
theorem claim_c7_analyzers_nonempty (selectedAnalyzers : List AnalyzerType) :
    (clientAnalyzersField selectedAnalyzers = none ↔ selectedAnalyzers = []) ∧
    requestedAnalyzersOf (clientAnalyzersField selectedAnalyzers) ≠ [] := by
  constructor
  · unfold clientAnalyzersField
    split
    · next h =>
      simp only [reduceCtorEq, false_iff]
      intro hnil
      rw [hnil] at h
      simp at h
    · next h =>
      simp only [true_iff]
      rw [← List.length_eq_zero]
      omega
  · unfold requestedAnalyzersOf clientAnalyzersField
    split
    · next h =>
      simp only [Option.getD_some]
      exact List.length_pos.mp h
    · simp [availableAnalyzers]

/-- C7 witness: an empty selection omits the field and still yields a
non-empty requested set. -/
theorem claim_c7_witness :
    clientAnalyzersField [] = none ∧
    requestedAnalyzersOf (clientAnalyzersField []) ≠ [] :=
  ⟨(claim_c7_analyzers_nonempty []).1.mpr rfl,
   (claim_c7_analyzers_nonempty []).2⟩

/-- C9: `resetState` maps every store state back to exactly the creation-time
initial state, and is therefore idempotent. -/
theorem claim_c9_resetState (A S R : Type) (s : AppState A S R) :
    resetState s = initialAppState A S R ∧
    resetState (resetState s) = resetState s := by
  constructor <;> rfl

/-- C4: a task whose every attempt fails transiently is retried with backoff
delays `base * multiplier^(attempt-1) + jitter` until the configured maximum
attempt count (default 3) is reached and then fails terminally; a permanent
error on the first attempt fails terminally at attempt 1 with no retry. -/
theorem claim_c4_retry_policy (cfg : RetryConfig)
    (outcomes : Nat → AttemptOutcome) (msgs : Nat → String)
    (hmax : 1 ≤ cfg.maxAttempts) :
    defaultMaxAttempts = 3 ∧
    ((∀ a, outcomes a = .err .transient (msgs a)) →
      runTask cfg outcomes
        = (.failedTerminal (msgs cfg.maxAttempts), cfg.maxAttempts,
           (List.range (cfg.maxAttempts - 1)).map
             (fun k => cfg.base * cfg.multiplier ^ k + cfg.jitter (k + 1)))) ∧
    (∀ m, outcomes 1 = .err .permanent m →
      runTask cfg outcomes = (.failedTerminal m, 1, [])) :=
  ⟨rfl, fun h => runTask_all_transient cfg outcomes msgs hmax h,
   fun m h => runTask_permanent cfg outcomes m h⟩

/-- C4 witness: with base 2, multiplier 3, jitter `a ↦ a` and the default 3
attempts, an always-transient task fails terminally on attempt 3 after two
backoff sleeps. -/
theorem claim_c4_witness :
    runTask ⟨2, 3, fun a => a, 3⟩
        (fun _ => AttemptOutcome.err ErrorClass.transient "timeout")
      = (TaskOutcome.failedTerminal "timeout", 3,
         (List.range (3 - 1)).map (fun k => 2 * 3 ^ k + (k + 1))) :=
  (claim_c4_retry_policy ⟨2, 3, fun a => a, 3⟩
    (fun _ => AttemptOutcome.err ErrorClass.transient "timeout")
    (fun _ => "timeout") (by decide)).2.1 (fun _ => rfl)

/-- C8: no progress update is ever lost — after any interleaving of atomic
registry mutations, `progressPercent` equals
`floor(settledTasks / totalTasks * 100)` exactly, and settling two distinct
unsettled tasks in either order yields the same progress value. -/
theorem claim_c8_no_lost_update (id : String) (analyzers : List String)
    (ops : List JobOp) (j : AnalysisJob) (a b : Nat)
    (ta tb : TaskRecord) (o₁ o₂ : Settlement) (hab : a ≠ b)
    (hst : j.status = .processing)
    (hta : j.tasks[a]? = some ta) (hsa : ta.state.settled = false)
    (htb : j.tasks[b]? = some tb) (hsb : tb.state.settled = false) :
    (run ops (createJob id analyzers)).progressPercent
      = settledCount (run ops (createJob id analyzers)) * 100
        / totalTasks (run ops (createJob id analyzers)) ∧
    (settleTask b o₂ (settleTask a o₁ j)).progressPercent
      = (settleTask a o₁ (settleTask b o₂ j)).progressPercent := by
  refine ⟨(jobInv_run (jobInv_create id analyzers) ops).1, ?_⟩
  have hst₁ : (settleTask a o₁ j).status = .processing := by
    rw [settleTask_status]; exact hst
  have hst₂ : (settleTask b o₂ j).status = .processing := by
    rw [settleTask_status]; exact hst
  have htasks₁ : (settleTask a o₁ j).tasks
      = j.tasks.set a { ta with state := o₁.finalState } :=
    settleTask_tasks_of_unsettled o₁ hst hta hsa
  have htasks₂ : (settleTask b o₂ j).tasks
      = j.tasks.set b { tb with state := o₂.finalState } :=
    settleTask_tasks_of_unsettled o₂ hst htb hsb
  have htb' : (settleTask a o₁ j).tasks[b]? = some tb := by
    rw [htasks₁, List.getElem?_set_ne hab]
    exact htb
  have hta' : (settleTask b o₂ j).tasks[a]? = some ta := by
    rw [htasks₂, List.getElem?_set_ne (Ne.symm hab)]
    exact hta
  have hp₁ := settleTask_progress_of_unsettled o₂ hst₁ htb' hsb
  have hp₂ := settleTask_progress_of_unsettled o₁ hst₂ hta' hsa
  rw [hp₁, hp₂, htasks₁, htasks₂,
    List.set_comm _ _ _ hab]

/-- C8 witness: settling the two tasks of a two-analyzer job in either order
gives the same progress. -/
theorem claim_c8_witness :
    (settleTask 1 (Settlement.failure "x") (settleTask 0 (Settlement.success "p")
        { createJob "job-8" ["scope", "uml"]
          with status := AnalysisStatus.processing })).progressPercent
      = (settleTask 0 (Settlement.success "p")
          (settleTask 1 (Settlement.failure "x")
            { createJob "job-8" ["scope", "uml"]
              with status := AnalysisStatus.processing })).progressPercent :=
  (claim_c8_no_lost_update "job-8" ["scope", "uml"] []
    { createJob "job-8" ["scope", "uml"] with status := AnalysisStatus.processing }
    0 1 ⟨"scope", .queued, 1⟩ ⟨"uml", .queued, 1⟩
    (Settlement.success "p") (Settlement.failure "x")
    (by decide) rfl (by decide) rfl (by decide) rfl).2

/-- A status for which `pollStatus` reschedules itself is neither terminal
state. -/
theorem continuePolling_not_terminal {st : AnalysisStatus}
    (h : continuePolling st = true) :
    st ≠ AnalysisStatus.completed ∧ st ≠ AnalysisStatus.failed := by
  cases st <;> revert h <;> decide

/-- Every status observed strictly before the end of a poll trace satisfies
the rescheduling condition. -/
theorem pollTrace_continue (statuses : Nat → AnalysisStatus) :
    ∀ (fuel start i : Nat) (st : AnalysisStatus),
      i + 1 < (pollTrace statuses fuel start).length →
      (pollTrace statuses fuel start)[i]? = some st →
      continuePolling st = true := by
  intro fuel
  induction fuel with
  | zero =>
    intro start i st h _
    simp [pollTrace] at h
  | succ n ih =>
    intro start i st h hget
    unfold pollTrace at h hget
    by_cases hc : continuePolling (statuses start) = true
    · simp only [hc, if_true] at h hget
      cases i with
      | zero =>
        simp only [List.getElem?_cons_zero, Option.some.injEq] at hget
        rw [← hget]
        exact hc
      | succ k =>
        simp only [List.getElem?_cons_succ] at hget
        simp only [List.length_cons, Nat.add_lt_add_iff_right] at h
        exact ih (start + 1) k st h hget
    · rw [Bool.not_eq_true] at hc
      simp [hc] at h

/-- C10: `pollStatus` reschedules itself only when the returned status is
Processing or Pending, so no further status request is issued after a
terminal (Completed or Failed) status is observed: any terminal status can
only be the last element of the poll trace. -/
theorem claim_c10_poll_stops (statuses : Nat → AnalysisStatus)
    (fuel start i : Nat)
    (h : i + 1 < (pollTrace statuses fuel start).length) :
    continuePolling ((pollTrace statuses fuel start).get
        ⟨i, Nat.lt_of_succ_lt h⟩) = true ∧
    (pollTrace statuses fuel start).get ⟨i, Nat.lt_of_succ_lt h⟩
      ≠ AnalysisStatus.completed ∧
    (pollTrace statuses fuel start).get ⟨i, Nat.lt_of_succ_lt h⟩
      ≠ AnalysisStatus.failed := by
  have h' : i < (pollTrace statuses fuel start).length := Nat.lt_of_succ_lt h
  have hget : (pollTrace statuses fuel start)[i]?
      = some ((pollTrace statuses fuel start).get ⟨i, h'⟩) := by
    rw [List.getElem?_eq_getElem h', List.get_eq_getElem]
  have hcont := pollTrace_continue statuses fuel start i
    ((pollTrace statuses fuel start).get ⟨i, h'⟩) h hget
  exact ⟨hcont, continuePolling_not_terminal hcont⟩

/-- C10 witness: with one Processing response followed by Completed, the
non-final observation satisfies the rescheduling condition. -/
theorem claim_c10_witness :
    continuePolling ((pollTrace
        (fun n => if n = 0 then AnalysisStatus.processing
          else AnalysisStatus.completed) 5 0).get ⟨0, by decide⟩) = true :=
  (claim_c10_poll_stops
    (fun n => if n = 0 then AnalysisStatus.processing
      else AnalysisStatus.completed) 5 0 0 (by decide)).1

end GitAnalyzer
